import Mathlib

/-!
Verification development for the r.dop.import GRASS addon (r.dop.import.py).

The Python module downloads Digital Orthophotos for a set of German federal
states, fans the per-tile imports out over a bounded parallel worker pool and
assembles per-band virtual mosaics.  The definitions below are a shallow
embedding of the relevant parts of the source file: pure computations become
Lean functions, the effectful parts of the run (downloads, mapset creation,
job submission, mosaic building) are recorded as an explicit event trace, and
fatal errors become values of an Except type.
-/

namespace RDop

/-- A working window, restricted to the two fields the module reads
(lines 501 and 506 of the source): the north-south and east-west
resolution of the currently active region. -/
structure Window where
  nsres : ℚ
  ewres : ℚ
deriving DecidableEq

/-- Embedding of setup_parallel_processing (source lines 146 to 165).
A configured value of -2 resolves to cpu_count - 1 when more than one core
is available and to 1 otherwise; any other configured value is kept
unchanged (an oversubscription only produces a warning). -/
def setup_parallel_processing (nprocs : Int) (cpu_count : Nat) : Int :=
  if nprocs == -2 then
    (if cpu_count > 1 then (cpu_count : Int) - 1 else 1)
  else nprocs

/-- Embedding of the per-region nprocs clamp (source lines 527 and 528):
if number_tiles < nprocs then nprocs is reassigned to number_tiles.
Note that in the source this reassigns the loop-carried variable, so the
clamped value persists into later regions of the same run. -/
def clampNprocs (number_tiles : Nat) (nprocs : Int) : Int :=
  if (number_tiles : Int) < nprocs then (number_tiles : Int) else nprocs

/-- The sequence of pool sizes handed to ParallelModuleQueue, one per
requested region, obtained by iterating the clamp of lines 527 to 529 with
the loop-carried nprocs variable. -/
def pool_sizes (nprocs : Int) : List Nat → List Int
  | [] => []
  | n :: rest => clampNprocs n nprocs :: pool_sizes (clampNprocs n nprocs) rest

/-- Embedding of the resolution policy of main (source lines 501 to 509):
with the r flag the resolution is the constant 0.2; otherwise it is the
window resolution, provided north-south and east-west resolution agree,
and a fatal error otherwise. -/
def resolution_to_import (r_flag : Bool) (nsres ewres : ℚ) : Except String ℚ :=
  if r_flag then Except.ok (0.2 : ℚ)
  else if nsres = ewres then Except.ok nsres
  else Except.error "N/S resolution is not the same as E/W resolution!"

/-- Embedding of the Berlin/Brandenburg de-duplication of main (source
lines 493 to 496): when both names occur, the element at the first index
of Berlin is deleted from the list. -/
def dedup_federal_states (fs : List String) : List String :=
  if fs.contains "Berlin" && fs.contains "Brandenburg" then
    fs.eraseIdx (fs.indexOf "Berlin")
  else fs

/-- Observable steps of a run, recorded as a trace: the tindex download
(network access), the pool creation, the bookkeeping appends of the
submission loop, the job submissions, and the copy/buildvrt/rename steps
of create_vrt. -/
inductive Event where
  | network (url : String)
  | pool (n : Int)
  | appendMapset (name : String)
  | appendBand (band : String) (ref : String)
  | putJob (mapset : String)
  | copy (src : String) (dst : String)
  | buildvrt (inputs : List String) (out : String)
  | rename (src : String) (out : String)
deriving DecidableEq

/-- True exactly on the events emitted by create_vrt, the mosaic-assembly
step (source lines 435 to 449). -/
def isMosaicEv : Event → Bool
  | Event.copy _ _ => true
  | Event.buildvrt _ _ => true
  | Event.rename _ _ => true
  | _ => false

/-- A trace that contains no mosaic-assembly event. -/
def mosaicFree (tr : List Event) : Prop := ∀ e ∈ tr, isMosaicEv e = false

/-- Extracts the pool size from a pool-creation event. -/
def poolOf : Event → Option Int
  | Event.pool n => some n
  | _ => none

/-- One work unit of the submission loop (source lines 534 to 580):
either an indexed tile, carrying the tile key and the download URL from
the tile index attribute table, or a Hessen grid cell, carrying the name
of the extracted grid tile vector. -/
inductive TileEl where
  | indexed (key : String) (url : String)
  | cell (name : String)
deriving DecidableEq

/-- The key used in the isolated-mapset name: the tile-index key for the
indexed branch (line 536), the tile name for the grid branch (line 561). -/
def tileKey : TileEl → String
  | TileEl.indexed k _ => k
  | TileEl.cell n => n

/-- Embedding of the raster_name computation: for the indexed branch
(lines 541 to 545) the basename of the URL up to the first dot, with
dashes replaced by underscores, suffixed with the process id; for the
grid branch (line 566) the tile name itself. -/
def rasterName (pid : Nat) : TileEl → String
  | TileEl.indexed _ url =>
      (((url.splitOn "/").getLastD url).splitOn "." |>.headD
          ((url.splitOn "/").getLastD url)).replace "-" "_"
        ++ "_" ++ toString pid
  | TileEl.cell n => n

/-- Embedding of the new_mapset name (lines 537 to 539 and 562 to 564):
tmp_mapset_rdop_import_tile_ followed by the tile key and the process id. -/
def mapsetName (pid : Nat) (el : TileEl) : String :=
  "tmp_mapset_rdop_import_tile_" ++ tileKey el ++ "_" ++ toString pid

/-- Embedding of the qualified band raster reference appended to
all_raster (lines 546 to 549 and 567 to 570): the federal-state code, the
raster name, the band name, and the owning mapset after an at sign. -/
def bandRef (code : String) (pid : Nat) (band : String) (el : TileEl) : String :=
  code ++ "_" ++ rasterName pid el ++ "_" ++ band ++ "@" ++ mapsetName pid el

/-- The events of one iteration of the submission loop, in source order:
the mapset is registered for cleanup first, then one reference per band is
appended to all_raster in its dictionary order red, green, blue, nir, and
only then is the job put on the queue (line 597). -/
def tileEvents (code : String) (pid : Nat) (el : TileEl) : List Event :=
  [Event.appendMapset (mapsetName pid el),
   Event.appendBand "red" (bandRef code pid "red" el),
   Event.appendBand "green" (bandRef code pid "green" el),
   Event.appendBand "blue" (bandRef code pid "blue" el),
   Event.appendBand "nir" (bandRef code pid "nir" el),
   Event.putJob (mapsetName pid el)]

/-- The loop-carried state of main: the current nprocs variable, the
cleanup registry of mapsets, the four band raster lists of all_raster in
dictionary order, and the event trace. -/
structure MainState where
  nprocs : Int
  mapset_names : List String
  red : List String
  green : List String
  blue : List String
  nir : List String
  trace : List Event
deriving DecidableEq

/-- The state at the start of main: empty registries, empty band lists. -/
def initState (nprocs : Int) : MainState :=
  ⟨nprocs, [], [], [], [], [], []⟩

/-- One iteration of the submission loop (lines 534 to 597): append the
new mapset to the cleanup registry, append one qualified reference per
band to all_raster, and submit the worker job.  No worker result is
consulted here: the appends happen before the job runs. -/
def submitTile (code : String) (pid : Nat) (st : MainState) (el : TileEl) : MainState :=
  { st with
    mapset_names := st.mapset_names ++ [mapsetName pid el],
    red := st.red ++ [bandRef code pid "red" el],
    green := st.green ++ [bandRef code pid "green" el],
    blue := st.blue ++ [bandRef code pid "blue" el],
    nir := st.nir ++ [bandRef code pid "nir" el],
    trace := st.trace ++ tileEvents code pid el }

/-- The whole submission loop over the enumerated work units of one
region, in enumeration order. -/
def submitAll (code : String) (pid : Nat) (st : MainState) (tl : List TileEl) : MainState :=
  tl.foldl (submitTile code pid) st

/-- Outcome of one finished worker process as inspected by the except
block of main (lines 599 to 610): exit code, captured stderr, and the
command line reported by get_bash. -/
structure ProcResult where
  returncode : Int
  stderr : String
  cmd : String
deriving DecidableEq

/-- Embedding of the overlap selection of create_grid (source lines 224
to 239): v.select keeps the grid cells overlapping the area; when no cell
overlaps, the output vector does not exist and the run fails fatally,
otherwise one extracted tile name per surviving cell is returned, formed
from the grid name stem and the cell category. -/
def create_grid (gpref aoi : String) (cells : List String) (overlaps : String → Bool) :
    Except String (List String) :=
  if (cells.filter overlaps).isEmpty then
    Except.error ("The set region is not overlapping with " ++ aoi ++
      ". Please define another region.")
  else
    Except.ok ((cells.filter overlaps).map (fun c => gpref ++ "_" ++ c))

/-- The tiling input of one region, abstracting the external lookup
tables and the downloaded tile index content: Hessen is grid tiled, other
implemented regions carry a tile-index URL and the post-clip list of
(key, location) rows of its attribute table, and regions without a
registered source yield a warning and zero work units. -/
inductive RegionTiles where
  | grid (aoi : String) (cells : List String) (overlaps : String → Bool)
  | indexed (tindexUrl : String) (tiles : List (String × String))
  | unimplemented

/-- One requested region of a run: its federal-state code (the FS lookup
value), its tiling input, and the outcomes of its submitted worker jobs
in queue order. -/
structure RegionRun where
  code : String
  tiles : RegionTiles
  results : List ProcResult

/-- Embedding of get_tiles (source lines 360 to 401) at the granularity
of this model: the grid branch runs create_grid, the indexed branch
downloads the tile index (a network event) and reads the work units from
its attribute table, and an unimplemented region yields zero work units. -/
def enumerateTiles : RegionTiles → List Event × Except String (List TileEl)
  | RegionTiles.grid aoi cells overlaps =>
      match create_grid "HE_DOP" aoi cells overlaps with
      | Except.error e => ([], Except.error e)
      | Except.ok tiles => ([], Except.ok (tiles.map TileEl.cell))
  | RegionTiles.indexed url tiles =>
      ([Event.network url], Except.ok (tiles.map (fun t => TileEl.indexed t.1 t.2)))
  | RegionTiles.unimplemented => ([], Except.ok [])

/-- The state right after the queue of a region is created (lines 527 to
529): the loop-carried nprocs is clamped to the number of tiles, and the
enumeration events followed by the pool creation enter the trace. -/
def poolState (st : MainState) (evs : List Event) (ntiles : Nat) : MainState :=
  { st with
    nprocs := clampNprocs ntiles st.nprocs,
    trace := st.trace ++ evs ++ [Event.pool (clampNprocs ntiles st.nprocs)] }

/-- The fatal message built at lines 605 to 610 from a failed worker
process: the command line reported by get_bash and the captured stderr,
stripped of surrounding whitespace. -/
def workerErrMsg (p : ProcResult) : String :=
  "\nERROR by processing <" ++ p.cmd ++ ">: " ++ p.stderr.trim

/-- One iteration of the region loop of main (lines 521 to 610):
enumerate the work units, clamp the loop-carried nprocs to the number of
tiles, create the queue, submit every job, wait, and on a failed job
abort fatally with the message built at lines 605 to 610 from the first
failing process in scan order. -/
def processRegion (pid : Nat) (st : MainState) (reg : RegionRun) : MainState × Option String :=
  match enumerateTiles reg.tiles with
  | (evs, Except.error e) => ({ st with trace := st.trace ++ evs }, some e)
  | (evs, Except.ok tl) =>
      match reg.results.find? (fun q => q.returncode != 0) with
      | some p => (submitAll reg.code pid (poolState st evs tl.length) tl, some (workerErrMsg p))
      | none => (submitAll reg.code pid (poolState st evs tl.length) tl, none)

/-- The region loop of main: regions are processed sequentially and a
fatal error aborts the remaining regions. -/
def loopRegions (pid : Nat) : MainState → List RegionRun → MainState × Option String
  | st, [] => (st, none)
  | st, r :: rest =>
      match processRegion pid st r with
      | (st1, some e) => (st1, some e)
      | (st1, none) => loopRegions pid st1 rest

/-- Embedding of the split at the at sign of create_vrt (lines 438 and
443): the raster name without its mapset qualifier. -/
def dequalify (el : String) : String := (el.splitOn "@").headD el

/-- Embedding of create_vrt (source lines 435 to 449): copy every
contributor into the current mapset under its de-qualified name, then
build a virtual mosaic when there is more than one contributor and rename
directly otherwise.  The rename branch indexes b_list at position 0
without any emptiness guard, so an empty contributor list raises an
IndexError. -/
def create_vrt (b_list : List String) (out : String) : Except String (List Event) :=
  if 1 < (b_list.map dequalify).length then
    Except.ok ((b_list.map (fun el => Event.copy el (dequalify el)))
      ++ [Event.buildvrt (b_list.map dequalify) out])
  else
    match (b_list.map dequalify).head? with
    | some n => Except.ok ((b_list.map (fun el => Event.copy el (dequalify el)))
        ++ [Event.rename n out])
    | none => Except.error "IndexError: list index out of range"

/-- The band lists of all_raster in the dictionary iteration order of the
mosaic loop at line 612. -/
def bandLists (st : MainState) : List (String × List String) :=
  [("red", st.red), ("green", st.green), ("blue", st.blue), ("nir", st.nir)]

/-- Embedding of the mosaic loop of main (lines 611 to 615): for each
band in dictionary order, create_vrt is applied to its contributor list
under the output name formed from the output option and the band name. -/
def mosaicAll (output : String) (st : MainState) : Except String (List String × List Event) :=
  (bandLists st).foldlM
    (fun acc p => do
      let evs ← create_vrt p.2 (output ++ "_" ++ p.1)
      pure (acc.1 ++ [output ++ "_" ++ p.1], acc.2 ++ evs))
    (([] : List String), ([] : List Event))

/-- Embedding of main (source lines 452 to 620) over the inputs of one
run: resolve nprocs, fix the resolution policy, loop over the requested
regions, and finally assemble the per-band mosaics.  The returned state
carries the registries and the event trace, the Except value is the list
of generated output raster names or the fatal error message. -/
def main_model (r_flag : Bool) (win : Window) (cpu_count pid : Nat) (nprocs_opt : Int)
    (output : String) (regions : List RegionRun) :
    MainState × Except String (List String) :=
  match resolution_to_import r_flag win.nsres win.ewres with
  | Except.error e => (initState (setup_parallel_processing nprocs_opt cpu_count), Except.error e)
  | Except.ok _ =>
      match loopRegions pid (initState (setup_parallel_processing nprocs_opt cpu_count)) regions with
      | (st, some e) => (st, Except.error e)
      | (st, none) =>
          match mosaicAll output st with
          | Except.error e => (st, Except.error e)
          | Except.ok (outs, evs) => ({ st with trace := st.trace ++ evs }, Except.ok outs)

/-- The GRASS location state visible to cleanup: the existing vectors,
rasters, groups, saved regions (with the window each one stores), mapset
directories, and the currently active window. -/
structure GrassState where
  vectors : List String
  rasters : List String
  groups : List String
  savedRegions : List (String × Window)
  mapsets : List String
  currentWindow : Window
deriving DecidableEq

/-- The module-level cleanup registry: rm_vec, rm_rast, rm_group, the
saved original region name, and mapset_names (source lines 100 to 108). -/
structure Registry where
  rm_vec : List String
  rm_rast : List String
  rm_group : List String
  orig_region : Option String
  mapset_names : List String
deriving DecidableEq

/-- Embedding of one guarded removal of cleanup (lines 118 to 126): the
element is removed only when find_file reports it present, so removing an
absent element leaves the state untouched. -/
def rmStep (xs : List String) (n : String) : List String :=
  if xs.contains n then xs.filter (fun x => x != n) else xs

/-- Embedding of cleanup (source lines 111 to 143): remove every
registered vector, raster and group that is present, restore the saved
original region to the active window and delete it, and remove every
registered mapset directory with try_rmdir (which ignores an absent
directory).  Restoring a saved region that does not exist is the one
failing path, since g.region itself errors there; the run always saves
the region before registering it.  The tmp_dir, TMPLOC and SRCGISRC
branches are dead in this module: those globals are never assigned. -/
def cleanup (reg : Registry) (st : GrassState) : Except String GrassState :=
  match reg.orig_region with
  | none =>
      Except.ok { st with
        vectors := reg.rm_vec.foldl rmStep st.vectors,
        rasters := reg.rm_rast.foldl rmStep st.rasters,
        groups := reg.rm_group.foldl rmStep st.groups,
        mapsets := reg.mapset_names.foldl (fun a m => a.filter (fun x => x != m)) st.mapsets }
  | some r =>
      match st.savedRegions.find? (fun p => p.1 == r) with
      | none => Except.error ("ERROR: region <" ++ r ++ "> not found")
      | some p =>
          Except.ok { st with
            vectors := reg.rm_vec.foldl rmStep st.vectors,
            rasters := reg.rm_rast.foldl rmStep st.rasters,
            groups := reg.rm_group.foldl rmStep st.groups,
            currentWindow := p.2,
            savedRegions := st.savedRegions.filter (fun q => q.1 != r),
            mapsets := reg.mapset_names.foldl (fun a m => a.filter (fun x => x != m)) st.mapsets }

/-! ### Helper lemmas -/

theorem clampNprocs_eq_min (n : Nat) (np : Int) : clampNprocs n np = min np n := by
  unfold clampNprocs
  rcases lt_or_ge ((n : Int)) np with h | h
  · rw [if_pos h, min_eq_right h.le]
  · rw [if_neg (not_lt.mpr h), min_eq_left h]

theorem eraseIdx_indexOf (l : List String) (a : String) :
    l.eraseIdx (l.indexOf a) = l.erase a := by
  induction l with
  | nil => rfl
  | cons b t ih =>
    by_cases h : b = a
    · subst h
      simp [List.indexOf_cons_self]
    · rw [List.indexOf_cons_ne _ h, List.eraseIdx_cons_succ, ih,
        List.erase_cons_tail (by simp [h])]

theorem submitAll_eq :
    ∀ (code : String) (pid : Nat) (tl : List TileEl) (st : MainState),
    submitAll code pid st tl =
      { st with
        mapset_names := st.mapset_names ++ tl.map (mapsetName pid),
        red := st.red ++ tl.map (bandRef code pid "red"),
        green := st.green ++ tl.map (bandRef code pid "green"),
        blue := st.blue ++ tl.map (bandRef code pid "blue"),
        nir := st.nir ++ tl.map (bandRef code pid "nir"),
        trace := st.trace ++ tl.flatMap (tileEvents code pid) } := by
  intro code pid tl
  induction tl with
  | nil => intro st; simp [submitAll]
  | cons a t ih =>
    intro st
    have h1 : submitAll code pid st (a :: t) =
        submitAll code pid (submitTile code pid st a) t := rfl
    rw [h1, ih]
    cases st
    simp [submitTile, List.append_assoc]

theorem mapsetName_inj (pid : Nat) : Function.Injective (fun k : String =>
    "tmp_mapset_rdop_import_tile_" ++ k ++ "_" ++ toString pid) := by
  intro k1 k2 h
  simp only at h
  have h2 := congrArg String.data h
  simp only [String.data_append, List.append_assoc] at h2
  have h3 := List.append_cancel_left h2
  have h4 := List.append_cancel_right h3
  have h5 : String.mk k1.data = String.mk k2.data := by rw [h4]
  simpa using h5

theorem create_vrt_ok_of_ne_nil (bl : List String) (out : String) (h : bl ≠ []) :
    ∃ evs, create_vrt bl out = Except.ok evs := by
  rcases bl with _ | ⟨a, _ | ⟨b, t⟩⟩
  · exact absurd rfl h
  · exact ⟨_, rfl⟩
  · exact ⟨(a :: b :: t).map (fun el => Event.copy el (dequalify el)) ++
      [Event.buildvrt ((a :: b :: t).map dequalify) out], by
        unfold create_vrt
        rw [if_pos (by simp)]⟩

theorem rmStep_no_op (xs : List String) (n : String) (h : xs.contains n = false) :
    rmStep xs n = xs := by
  unfold rmStep
  rw [if_neg]
  rw [h]
  simp

theorem mem_rmStep_of_mem {xs : List String} {n v : String}
    (h : v ∈ rmStep xs n) : v ∈ xs := by
  unfold rmStep at h
  split at h
  · exact (List.mem_filter.mp h).1
  · exact h

theorem not_mem_rmStep_self (xs : List String) (n : String) : n ∉ rmStep xs n := by
  unfold rmStep
  split
  · intro h
    have h2 := (List.mem_filter.mp h).2
    simp at h2
  · next hc =>
    intro h
    exact hc (by simp [List.contains, List.elem_eq_mem, h])

theorem not_mem_foldl_of_not_mem :
    ∀ (l xs : List String) (v : String), v ∉ xs → v ∉ l.foldl rmStep xs := by
  intro l
  induction l with
  | nil => intro xs v h; exact h
  | cons a t ih =>
    intro xs v h
    apply ih
    intro hmem
    exact h (mem_rmStep_of_mem hmem)

theorem not_mem_foldl_rmStep :
    ∀ (l xs : List String) (v : String), v ∈ l → v ∉ l.foldl rmStep xs := by
  intro l
  induction l with
  | nil => intro xs v h; simp at h
  | cons a t ih =>
    intro xs v hv
    rcases List.mem_cons.mp hv with h | h
    · subst h
      by_cases hm : v ∈ t
      · exact ih (rmStep xs v) v hm
      · exact not_mem_foldl_of_not_mem t (rmStep xs v) v (not_mem_rmStep_self xs v)
    · exact ih (rmStep xs a) v h

theorem not_mem_filterNe_of_not_mem {xs : List String} {m v : String}
    (h : v ∉ xs) : v ∉ xs.filter (fun x => x != m) := by
  intro hmem
  exact h (List.mem_filter.mp hmem).1

theorem not_mem_foldl_filterNe_of_not_mem :
    ∀ (l xs : List String) (v : String), v ∉ xs →
      v ∉ l.foldl (fun a m => a.filter (fun x => x != m)) xs := by
  intro l
  induction l with
  | nil => intro xs v h; exact h
  | cons a t ih =>
    intro xs v h
    exact ih _ v (not_mem_filterNe_of_not_mem h)

theorem not_mem_foldl_filterNe :
    ∀ (l xs : List String) (v : String), v ∈ l →
      v ∉ l.foldl (fun a m => a.filter (fun x => x != m)) xs := by
  intro l
  induction l with
  | nil => intro xs v h; simp at h
  | cons a t ih =>
    intro xs v hv
    rcases List.mem_cons.mp hv with h | h
    · subst h
      by_cases hm : v ∈ t
      · exact ih _ v hm
      · refine not_mem_foldl_filterNe_of_not_mem t _ v ?_
        intro hmem
        have h2 := (List.mem_filter.mp hmem).2
        simp at h2
    · exact ih _ v h

theorem mosaicFree_append {a b : List Event} (ha : mosaicFree a)
    (hb : mosaicFree b) : mosaicFree (a ++ b) := by
  intro e he
  rcases List.mem_append.mp he with h | h
  · exact ha e h
  · exact hb e h

theorem enumerateTiles_events_mosaicFree (t : RegionTiles) :
    mosaicFree (enumerateTiles t).1 := by
  cases t with
  | grid aoi cells overlaps =>
    cases h : create_grid "HE_DOP" aoi cells overlaps with
    | error e => simp [mosaicFree, enumerateTiles, h]
    | ok tiles => simp [mosaicFree, enumerateTiles, h]
  | indexed url tiles =>
    intro e he
    simp [enumerateTiles] at he
    subst he
    rfl
  | unimplemented =>
    intro e he
    simp [enumerateTiles] at he

theorem tileEvents_mosaicFree (code : String) (pid : Nat) (el : TileEl) :
    mosaicFree (tileEvents code pid el) := by
  intro e he
  simp [tileEvents] at he
  rcases he with h | h | h | h | h | h <;> subst h <;> rfl

theorem submitAll_mosaicFree (code : String) (pid : Nat) (st : MainState)
    (tl : List TileEl) (h : mosaicFree st.trace) :
    mosaicFree (submitAll code pid st tl).trace := by
  rw [submitAll_eq]
  refine mosaicFree_append h ?_
  intro e he
  rcases List.mem_flatMap.mp he with ⟨el, _, hmem⟩
  exact tileEvents_mosaicFree code pid el e hmem

theorem poolState_mosaicFree (st : MainState) (evs : List Event) (n : Nat)
    (h : mosaicFree st.trace) (hevs : mosaicFree evs) :
    mosaicFree (poolState st evs n).trace := by
  refine mosaicFree_append (mosaicFree_append h hevs) ?_
  intro e he
  simp at he
  subst he
  rfl

theorem processRegion_mosaicFree (pid : Nat) (st : MainState) (reg : RegionRun)
    (h : mosaicFree st.trace) :
    mosaicFree ((processRegion pid st reg).1).trace := by
  have hevs := enumerateTiles_events_mosaicFree reg.tiles
  unfold processRegion
  rcases henum : enumerateTiles reg.tiles with ⟨evs, res⟩
  rw [henum] at hevs
  cases res with
  | error e =>
    simpa using mosaicFree_append h hevs
  | ok tl =>
    cases hf : reg.results.find? (fun q => q.returncode != 0) with
    | some p =>
      simpa using submitAll_mosaicFree reg.code pid _ tl
        (poolState_mosaicFree st evs tl.length h hevs)
    | none =>
      simpa using submitAll_mosaicFree reg.code pid _ tl
        (poolState_mosaicFree st evs tl.length h hevs)

theorem loopRegions_mosaicFree (pid : Nat) :
    ∀ (regs : List RegionRun) (st : MainState), mosaicFree st.trace →
    mosaicFree ((loopRegions pid st regs).1).trace := by
  intro regs
  induction regs with
  | nil => intro st h; exact h
  | cons r t ih =>
    intro st h
    have hr := processRegion_mosaicFree pid st r h
    rcases hp : processRegion pid st r with ⟨st1, e?⟩
    rw [hp] at hr
    cases e? with
    | some e => simpa [loopRegions, hp] using hr
    | none =>
      have := ih st1 hr
      simpa [loopRegions, hp] using this

theorem loopRegions_append (pid : Nat) (pre rest : List RegionRun) :
    ∀ st : MainState,
    loopRegions pid st (pre ++ rest) =
      match loopRegions pid st pre with
      | (st1, none) => loopRegions pid st1 rest
      | (st1, some e) => (st1, some e) := by
  induction pre with
  | nil => intro st; rfl
  | cons r t ih =>
    intro st
    simp only [List.cons_append, loopRegions]
    rcases hp : processRegion pid st r with ⟨st1, e?⟩
    cases e? with
    | some e => rfl
    | none => exact ih st1

/-! ### Claim theorems -/

/-- Claim C2, counterexample: the clamped nprocs variable persists across
region iterations, so with 8 configured processes and regions of 2 and 5
work units, the second pool is created with size 2, not
min(configured, work units) = 5.  The second conjunct shows the same pool
sizes in the trace of a full run of the main model. -/
theorem pool_size_not_min_per_region :
    pool_sizes (setup_parallel_processing 8 16) [2, 5] = [2, 2] ∧
    (main_model true ⟨1, 1⟩ 16 7 8 "o"
        [⟨"HE", RegionTiles.grid "a" ["1", "2"] (fun _ => true),
            [⟨0, "", ""⟩, ⟨0, "", ""⟩]⟩,
         ⟨"HE", RegionTiles.grid "a" ["1", "2", "3", "4", "5"] (fun _ => true),
            [⟨0, "", ""⟩]⟩]).1.trace.filterMap poolOf = [2, 2] ∧
    min ((8 : Int)) ((5 : Int)) = 5 ∧ ((2 : Int)) ≠ 5 := by
  refine ⟨by decide, by decide, by decide, by decide⟩

/-- Claim C2, amended: the pool size of the i-th requested region equals
the minimum of the configured nprocs and the work-unit counts of all
regions processed so far (up to and including region i), because the
clamp at line 528 reassigns the loop-carried variable; the configured
value -2 (auto) resolves to max(1, available cores - 1). -/
theorem pool_size_running_min :
    ∀ (np0 : Int) (counts : List Nat) (i : Nat)
      (h : i < (pool_sizes np0 counts).length),
    (pool_sizes np0 counts).get ⟨i, h⟩ =
        (counts.take (i + 1)).foldl (fun a n => min a ((n : Int))) np0 ∧
    ∀ c : Nat, setup_parallel_processing (-2) c = max 1 ((c : Int) - 1) := by
  intro np0 counts i h
  constructor
  · induction counts generalizing np0 i with
    | nil => simp [pool_sizes] at h
    | cons n rest ih =>
      cases i with
      | zero => simp [pool_sizes, clampNprocs_eq_min]
      | succ j =>
        have h2 : j < (pool_sizes (clampNprocs n np0) rest).length := by
          simpa [pool_sizes] using h
        have := ih (clampNprocs n np0) j h2
        simpa [pool_sizes, List.take, clampNprocs_eq_min] using this
  · intro c
    rcases c with _ | _ | c
    · decide
    · decide
    · simp only [setup_parallel_processing, beq_self_eq_true, if_true]
      rw [if_pos (by omega : c + 1 + 1 > 1), max_eq_right (by push_cast; omega)]

/-- Claim C2, amended, witness at nprocs 8 and regions with 2 and 5 work
units: the pool of the second region has size min(8, 2, 5) = 2. -/
theorem pool_size_running_min_witness :
    (pool_sizes 8 [2, 5]).get ⟨1, by decide⟩ =
      (([2, 5] : List Nat).take 2).foldl (fun a n => min a ((n : Int))) 8 ∧
    setup_parallel_processing (-2) 16 = max 1 ((16 : Int) - 1) := by
  exact ⟨(pool_size_running_min 8 [2, 5] 1 (by decide)).1,
         (pool_size_running_min 8 [2, 5] 1 (by decide)).2 16⟩

/-- Claim C3: with the r flag the resolution is the constant 0.2
regardless of the window; without it the resolution equals the window
resolution when north-south and east-west resolutions agree, and an
unequal pair is a fatal error raised before the region loop, so the run
terminates with an empty trace: no network access has happened. -/
theorem resolution_policy_spec :
    ∀ (r : Bool) (ns ew : ℚ),
    (r = true → resolution_to_import r ns ew = Except.ok (0.2 : ℚ)) ∧
    (r = false → ns = ew → resolution_to_import r ns ew = Except.ok ns) ∧
    (r = false → ns ≠ ew → resolution_to_import r ns ew =
        Except.error "N/S resolution is not the same as E/W resolution!") ∧
    (∀ (cpu pid : Nat) (np : Int) (out : String) (regions : List RegionRun),
        r = false → ns ≠ ew →
        (main_model r ⟨ns, ew⟩ cpu pid np out regions).2 =
          Except.error "N/S resolution is not the same as E/W resolution!" ∧
        (main_model r ⟨ns, ew⟩ cpu pid np out regions).1.trace = []) := by
  intro r ns ew
  refine ⟨?_, ?_, ?_, ?_⟩
  · intro h; subst h; simp [resolution_to_import]
  · intro h he; subst h; simp [resolution_to_import, he]
  · intro h hne; subst h; simp [resolution_to_import, hne]
  · intro cpu pid np out regions h hne
    subst h
    have hres : resolution_to_import false ns ew =
        Except.error "N/S resolution is not the same as E/W resolution!" := by
      simp [resolution_to_import, hne]
    constructor
    · simp [main_model, hres]
    · simp [main_model, hres, initState]

/-- Claim C3, witness: concrete evaluations of the three branches of the
resolution policy. -/
theorem resolution_policy_spec_witness :
    resolution_to_import true 3 7 = Except.ok (0.2 : ℚ) ∧
    resolution_to_import false 2 2 = Except.ok 2 ∧
    resolution_to_import false 1 2 =
      Except.error "N/S resolution is not the same as E/W resolution!" := by
  exact ⟨(resolution_policy_spec true 3 7).1 rfl,
         (resolution_policy_spec false 2 2).2.1 rfl rfl,
         (resolution_policy_spec false 1 2).2.2.1 rfl (by norm_num)⟩

/-- Claim C8: when Berlin and Brandenburg are both requested (each once,
as two distinct requested regions), Berlin is silently removed from the
request list before enumeration, Brandenburg stays, and every other
region keeps its multiplicity, so only one set of jobs is produced for
the shared Brandenburg service. -/
theorem berlin_brandenburg_dedup :
    ∀ fs : List String, "Berlin" ∈ fs → "Brandenburg" ∈ fs →
    fs.count "Berlin" = 1 →
    dedup_federal_states fs = fs.erase "Berlin" ∧
    "Berlin" ∉ dedup_federal_states fs ∧
    "Brandenburg" ∈ dedup_federal_states fs ∧
    ∀ s : String, s ≠ "Berlin" →
      (dedup_federal_states fs).count s = fs.count s := by
  intro fs hb hbb hcount
  have hd : dedup_federal_states fs = fs.erase "Berlin" := by
    unfold dedup_federal_states
    rw [if_pos, eraseIdx_indexOf]
    simp only [List.contains, Bool.and_eq_true, List.elem_eq_mem, decide_eq_true_eq]
    exact ⟨hb, hbb⟩
  refine ⟨hd, ?_, ?_, ?_⟩
  · rw [hd, ← List.count_eq_zero, List.count_erase_self, hcount]
  · rw [hd]
    exact (List.mem_erase_of_ne (by decide)).mpr hbb
  · intro s hs
    rw [hd, List.count_erase_of_ne hs]

/-- Claim C8, witness: the two-region request list Berlin, Brandenburg is
reduced to Brandenburg alone. -/
theorem berlin_brandenburg_dedup_witness :
    dedup_federal_states ["Berlin", "Brandenburg"] = ["Brandenburg"] ∧
    "Berlin" ∉ dedup_federal_states ["Berlin", "Brandenburg"] := by
  obtain ⟨h1, h2, h3, h4⟩ :=
    berlin_brandenburg_dedup ["Berlin", "Brandenburg"]
      (by decide) (by decide) (by decide)
  exact ⟨h1.trans (by decide), h2⟩

/-- Claim C1: if the processing reaches a region and any of its parallel
worker jobs exits with a non-zero status, the whole run terminates with
the fatal worker-failure message, which carries the captured stderr of
the (first found) failing job verbatim (whitespace-stripped) as its
suffix; the trace of the terminated run contains no mosaic-assembly
event, so create_vrt was never performed and no other tile was salvaged
into an output. -/
theorem worker_failure_aborts_run :
    ∀ (r_flag : Bool) (win : Window) (cpu pid : Nat) (np : Int) (out : String)
      (pre post : List RegionRun) (reg : RegionRun) (st1 : MainState)
      (evs : List Event) (tl : List TileEl) (p : ProcResult) (res : ℚ),
    resolution_to_import r_flag win.nsres win.ewres = Except.ok res →
    loopRegions pid (initState (setup_parallel_processing np cpu)) pre =
      (st1, none) →
    enumerateTiles reg.tiles = (evs, Except.ok tl) →
    reg.results.find? (fun q => q.returncode != 0) = some p →
    ∃ stF : MainState,
      main_model r_flag win cpu pid np out (pre ++ reg :: post) =
        (stF, Except.error (workerErrMsg p)) ∧
      workerErrMsg p =
        ("\nERROR by processing <" ++ p.cmd ++ ">: ") ++ p.stderr.trim ∧
      mosaicFree stF.trace := by
  intro r_flag win cpu pid np out pre post reg st1 evs tl p res hres hpre henum hfind
  have hproc : processRegion pid st1 reg =
      (submitAll reg.code pid (poolState st1 evs tl.length) tl,
        some (workerErrMsg p)) := by
    unfold processRegion
    rw [henum, hfind]
  have hloop : loopRegions pid (initState (setup_parallel_processing np cpu))
      (pre ++ reg :: post) =
      (submitAll reg.code pid (poolState st1 evs tl.length) tl,
        some (workerErrMsg p)) := by
    rw [loopRegions_append, hpre]
    show loopRegions pid st1 (reg :: post) = _
    simp [loopRegions, hproc]
  refine ⟨submitAll reg.code pid (poolState st1 evs tl.length) tl, ?_, rfl, ?_⟩
  · unfold main_model
    rw [hres, hloop]
  · have hst1 : mosaicFree st1.trace := by
      have h0 := loopRegions_mosaicFree pid pre
        (initState (setup_parallel_processing np cpu))
        (by intro e he; simp [initState] at he)
      rw [hpre] at h0
      exact h0
    have hevs : mosaicFree evs := by
      have h0 := enumerateTiles_events_mosaicFree reg.tiles
      rw [henum] at h0
      exact h0
    exact submitAll_mosaicFree reg.code pid _ tl
      (poolState_mosaicFree st1 evs tl.length hst1 hevs)

/-- Claim C1, witness: a single-region run with one indexed tile whose
worker exits 1 with stderr text terminates with the worker-failure
message containing the stripped stderr, and no mosaic event was traced. -/
theorem worker_failure_aborts_run_witness :
    ∃ stF : MainState,
      main_model true ⟨1, 1⟩ 4 7 (-2) "o"
        ([] ++ (⟨"NW", RegionTiles.indexed "https://a/tindexA.gz"
            [("5", "https://a/x-5.tif")],
            [⟨1, " boom ", "r.dop.import.worker"⟩]⟩ : RegionRun) :: []) =
        (stF, Except.error (workerErrMsg ⟨1, " boom ", "r.dop.import.worker"⟩)) ∧
      workerErrMsg ⟨1, " boom ", "r.dop.import.worker"⟩ =
        ("\nERROR by processing <" ++ "r.dop.import.worker" ++ ">: ") ++
          " boom ".trim ∧
      mosaicFree stF.trace := by
  exact worker_failure_aborts_run true ⟨1, 1⟩ 4 7 (-2) "o" [] []
    ⟨"NW", RegionTiles.indexed "https://a/tindexA.gz"
      [("5", "https://a/x-5.tif")], [⟨1, " boom ", "r.dop.import.worker"⟩]⟩
    (initState (setup_parallel_processing (-2) 4))
    [Event.network "https://a/tindexA.gz"] [TileEl.indexed "5" "https://a/x-5.tif"]
    ⟨1, " boom ", "r.dop.import.worker"⟩ (0.2 : ℚ) rfl rfl rfl rfl

/-- Claim C4: for every submitted work unit, the submission loop appends
exactly one qualified raster reference to each of the four band raster
lists in submission (enumeration) order, and registers the isolated
mapset for cleanup; the per-unit event order is: cleanup registration,
the four band appends, then the queue put.  The loop consults no worker
result, so each band list has one entry per work unit and its order is a
function of the enumeration alone, independent of completion timing. -/
theorem band_lists_at_submission :
    ∀ (code : String) (pid : Nat) (st : MainState) (tl : List TileEl),
    (submitAll code pid st tl).red = st.red ++ tl.map (bandRef code pid "red") ∧
    (submitAll code pid st tl).green = st.green ++ tl.map (bandRef code pid "green") ∧
    (submitAll code pid st tl).blue = st.blue ++ tl.map (bandRef code pid "blue") ∧
    (submitAll code pid st tl).nir = st.nir ++ tl.map (bandRef code pid "nir") ∧
    (submitAll code pid st tl).mapset_names =
      st.mapset_names ++ tl.map (mapsetName pid) ∧
    (submitAll code pid st tl).trace = st.trace ++ tl.flatMap (tileEvents code pid) ∧
    (submitAll code pid st tl).red.length = st.red.length + tl.length ∧
    (∀ el : TileEl, tileEvents code pid el =
      [Event.appendMapset (mapsetName pid el),
       Event.appendBand "red" (bandRef code pid "red" el),
       Event.appendBand "green" (bandRef code pid "green" el),
       Event.appendBand "blue" (bandRef code pid "blue" el),
       Event.appendBand "nir" (bandRef code pid "nir" el),
       Event.putJob (mapsetName pid el)]) := by
  intro code pid st tl
  rw [submitAll_eq]
  exact ⟨rfl, rfl, rfl, rfl, rfl, rfl, by simp, fun el => rfl⟩

/-- Claim C9, counterexample: a run of two tile-index regions whose
indexes both contain a tile with key 1 (the attribute-table categories of
two different indexes both start at 1) generates the same isolated-mapset
name tmp_mapset_rdop_import_tile_1_7 for two distinct work units, so the
generated names are not pairwise distinct across regions. -/
theorem mapset_names_collide_across_regions :
    ¬ ((main_model true ⟨1, 1⟩ 4 7 (-2) "o"
        [⟨"NW", RegionTiles.indexed "https://a/tindexA.gz"
            [("1", "https://a/x-1.tif")], [⟨0, "", ""⟩]⟩,
         ⟨"BB", RegionTiles.indexed "https://b/tindexB.gz"
            [("1", "https://b/y-1.tif")], [⟨0, "", ""⟩]⟩]).1.mapset_names).Nodup := by
  decide

/-- Claim C9, amended: the isolated-mapset names generated for the
submitted work units of a run (the process id is fixed for the run) are
pairwise distinct exactly when the tile/cell keys of those work units are
pairwise distinct; keys are unique within one region enumeration, but
nothing makes them distinct across regions. -/
theorem mapset_names_nodup_iff_keys :
    ∀ (pid : Nat) (tl : List TileEl),
    ((tl.map (mapsetName pid)).Nodup ↔ (tl.map tileKey).Nodup) ∧
    (∀ (code : String) (st : MainState),
      (submitAll code pid st tl).mapset_names =
        st.mapset_names ++ tl.map (mapsetName pid)) := by
  intro pid tl
  constructor
  · have hmap : tl.map (mapsetName pid) = (tl.map tileKey).map
        (fun k => "tmp_mapset_rdop_import_tile_" ++ k ++ "_" ++ toString pid) := by
      rw [List.map_map]; rfl
    rw [hmap]
    exact List.nodup_map_iff (mapsetName_inj pid)
  · intro code st
    rw [submitAll_eq]

/-- Claim C7: when no grid cell overlaps the area of interest, v.select
produces no output vector and create_grid fails fatally; a run on such a
region terminates with that error and an empty trace, so no worker job
was ever submitted. -/
theorem no_overlap_fatal :
    ∀ (gpref aoi : String) (cells : List String) (overlaps : String → Bool)
      (code : String) (results : List ProcResult) (win : Window)
      (cpu pid : Nat) (np : Int) (out : String),
    cells.filter overlaps = [] →
    create_grid gpref aoi cells overlaps =
      Except.error ("The set region is not overlapping with " ++ aoi ++
        ". Please define another region.") ∧
    (main_model true win cpu pid np out
        [⟨code, RegionTiles.grid aoi cells overlaps, results⟩]).2 =
      Except.error ("The set region is not overlapping with " ++ aoi ++
        ". Please define another region.") ∧
    (main_model true win cpu pid np out
        [⟨code, RegionTiles.grid aoi cells overlaps, results⟩]).1.trace = [] := by
  intro gpref aoi cells overlaps code results win cpu pid np out hsel
  have hcg : ∀ gp : String, create_grid gp aoi cells overlaps =
      Except.error ("The set region is not overlapping with " ++ aoi ++
        ". Please define another region.") := by
    intro gp
    simp [create_grid, hsel]
  refine ⟨hcg gpref, ?_, ?_⟩
  · simp [main_model, resolution_to_import, loopRegions, processRegion,
      enumerateTiles, hcg, initState]
  · simp [main_model, resolution_to_import, loopRegions, processRegion,
      enumerateTiles, hcg, initState]

/-- Claim C7, witness: two cells, neither overlapping the area, fail with
the no-overlap fatal error and an empty run trace. -/
theorem no_overlap_fatal_witness :
    create_grid "HE_DOP" "tmp_aoi_x" ["1", "2"] (fun _ => false) =
      Except.error ("The set region is not overlapping with " ++ "tmp_aoi_x" ++
        ". Please define another region.") ∧
    (main_model true ⟨1, 1⟩ 4 7 (-2) "o"
        [⟨"HE", RegionTiles.grid "tmp_aoi_x" ["1", "2"] (fun _ => false),
            []⟩]).1.trace = [] := by
  obtain ⟨h1, h2, h3⟩ :=
    no_overlap_fatal "HE_DOP" "tmp_aoi_x" ["1", "2"] (fun _ => false) "HE" []
      ⟨1, 1⟩ 4 7 (-2) "o" (by decide)
  exact ⟨h1, h3⟩

/-- Claim C5: create_vrt on a single contributor copies it and renames
it directly to the output name (no virtual mosaic); on more than one
contributor it copies all of them and builds one virtual mosaic spanning
all de-qualified contributors under the output name; applied per band,
the mosaic loop yields exactly the four outputs named output_band. -/
theorem create_vrt_spec :
    ∀ (bl : List String) (out output : String) (st : MainState),
    (bl.length = 1 → create_vrt bl out =
        Except.ok ((bl.map (fun el => Event.copy el (dequalify el))) ++
          [Event.rename (dequalify (bl.headD "")) out])) ∧
    (1 < bl.length → create_vrt bl out =
        Except.ok ((bl.map (fun el => Event.copy el (dequalify el))) ++
          [Event.buildvrt (bl.map dequalify) out])) ∧
    (st.red ≠ [] → st.green ≠ [] → st.blue ≠ [] → st.nir ≠ [] →
      ∃ evs, mosaicAll output st =
        Except.ok ([output ++ "_" ++ "red", output ++ "_" ++ "green",
          output ++ "_" ++ "blue", output ++ "_" ++ "nir"], evs)) := by
  intro bl out output st
  refine ⟨?_, ?_, ?_⟩
  · intro h1
    rcases bl with _ | ⟨a, _ | ⟨b, t⟩⟩
    · simp at h1
    · rfl
    · simp at h1
  · intro h1
    unfold create_vrt
    rw [if_pos (by simpa using h1)]
  · intro hr hg hb hn
    obtain ⟨e1, h1⟩ := create_vrt_ok_of_ne_nil st.red (output ++ "_" ++ "red") hr
    obtain ⟨e2, h2⟩ := create_vrt_ok_of_ne_nil st.green (output ++ "_" ++ "green") hg
    obtain ⟨e3, h3⟩ := create_vrt_ok_of_ne_nil st.blue (output ++ "_" ++ "blue") hb
    obtain ⟨e4, h4⟩ := create_vrt_ok_of_ne_nil st.nir (output ++ "_" ++ "nir") hn
    refine ⟨e1 ++ e2 ++ e3 ++ e4, ?_⟩
    simp only [mosaicAll, bandLists, List.foldlM, h1, h2, h3, h4]
    rfl

/-- Claim C5, witness: one contributor is renamed, two are merged into a
virtual mosaic, and a state with one contributor per band yields the four
output names. -/
theorem create_vrt_spec_witness :
    create_vrt ["a@m1"] "o" =
      Except.ok ([Event.copy "a@m1" (dequalify "a@m1")] ++
        [Event.rename (dequalify "a@m1") "o"]) ∧
    create_vrt ["a@m1", "b@m2"] "o" =
      Except.ok ([Event.copy "a@m1" (dequalify "a@m1"),
        Event.copy "b@m2" (dequalify "b@m2")] ++
        [Event.buildvrt [dequalify "a@m1", dequalify "b@m2"] "o"]) ∧
    ∃ evs, mosaicAll "o" ⟨0, [], ["r@m"], ["g@m"], ["b@m"], ["n@m"], []⟩ =
      Except.ok (["o" ++ "_" ++ "red", "o" ++ "_" ++ "green",
        "o" ++ "_" ++ "blue", "o" ++ "_" ++ "nir"], evs) := by
  refine ⟨?_, ?_, ?_⟩
  · exact (create_vrt_spec ["a@m1"] "o" "o" (initState 0)).1 rfl
  · exact (create_vrt_spec ["a@m1", "b@m2"] "o" "o" (initState 0)).2.1 (by decide)
  · exact (create_vrt_spec [] "o" "o"
      ⟨0, [], ["r@m"], ["g@m"], ["b@m"], ["n@m"], []⟩).2.2
      (by decide) (by decide) (by decide) (by decide)

/-- Claim C6: on termination, cleanup removes every registered vector,
raster and group that is present, restores the active window from the
saved original region and deletes that region, and removes every
registered isolated mapset directory; removing an already-absent
resource is a no-op, not an error (the find_file guard skips it). -/
theorem cleanup_removes_all :
    ∀ (reg : Registry) (st : GrassState) (r : String) (w : Window),
    reg.orig_region = some r →
    st.savedRegions.find? (fun p => p.1 == r) = some (r, w) →
    ∃ st2 : GrassState, cleanup reg st = Except.ok st2 ∧
      (∀ v ∈ reg.rm_vec, v ∉ st2.vectors) ∧
      (∀ x ∈ reg.rm_rast, x ∉ st2.rasters) ∧
      (∀ g ∈ reg.rm_group, g ∉ st2.groups) ∧
      st2.currentWindow = w ∧
      (∀ q ∈ st2.savedRegions, q.1 ≠ r) ∧
      (∀ m ∈ reg.mapset_names, m ∉ st2.mapsets) ∧
      (∀ (xs : List String) (n : String), xs.contains n = false →
        rmStep xs n = xs) := by
  intro reg st r w hor hfind
  refine ⟨{ st with
    vectors := reg.rm_vec.foldl rmStep st.vectors,
    rasters := reg.rm_rast.foldl rmStep st.rasters,
    groups := reg.rm_group.foldl rmStep st.groups,
    currentWindow := w,
    savedRegions := st.savedRegions.filter (fun q => q.1 != r),
    mapsets := reg.mapset_names.foldl (fun a m => a.filter (fun x => x != m)) st.mapsets },
    ?_, ?_, ?_, ?_, ?_, ?_, ?_, fun xs n h => rmStep_no_op xs n h⟩
  · unfold cleanup
    simp only [hor, hfind]
  · intro v hv
    exact not_mem_foldl_rmStep reg.rm_vec st.vectors v hv
  · intro x hx
    exact not_mem_foldl_rmStep reg.rm_rast st.rasters x hx
  · intro g hg
    exact not_mem_foldl_rmStep reg.rm_group st.groups g hg
  · rfl
  · intro q hq
    have h2 := (List.mem_filter.mp hq).2
    simpa using h2
  · intro m hm
    exact not_mem_foldl_filterNe reg.mapset_names st.mapsets m hm

/-- Claim C6, witness: a registry holding one vector, raster, group,
mapset and the saved original region, applied to a state where they all
exist, leaves none of them present and restores the saved window. -/
theorem cleanup_removes_all_witness :
    ∃ st2 : GrassState,
      cleanup ⟨["v1"], ["r1"], ["g1"], some "orig", ["m1"]⟩
          ⟨["v1", "keep"], ["r1"], ["g1"], [("orig", ⟨1, 1⟩)], ["m1"], ⟨2, 3⟩⟩ =
        Except.ok st2 ∧
      (∀ v ∈ (["v1"] : List String), v ∉ st2.vectors) ∧
      (∀ x ∈ (["r1"] : List String), x ∉ st2.rasters) ∧
      (∀ g ∈ (["g1"] : List String), g ∉ st2.groups) ∧
      st2.currentWindow = ⟨1, 1⟩ ∧
      (∀ q ∈ st2.savedRegions, q.1 ≠ "orig") ∧
      (∀ m ∈ (["m1"] : List String), m ∉ st2.mapsets) ∧
      (∀ (xs : List String) (n : String), xs.contains n = false →
        rmStep xs n = xs) := by
  exact cleanup_removes_all ⟨["v1"], ["r1"], ["g1"], some "orig", ["m1"]⟩
    ⟨["v1", "keep"], ["r1"], ["g1"], [("orig", ⟨1, 1⟩)], ["m1"], ⟨2, 3⟩⟩
    "orig" ⟨1, 1⟩ rfl (by decide)

/-- Claim C10: create_vrt has no branch for an empty contributor list;
the single-contributor branch indexes position 0 unguarded, so an empty
band list is an out-of-range IndexError, and a run whose requested
regions yield zero work units reaches the mosaic loop with empty band
lists and fails with exactly that IndexError instead of producing an
output raster. -/
theorem empty_band_list_index_error :
    ∀ (out : String) (win : Window) (cpu pid : Nat) (np : Int)
      (output code : String),
    create_vrt [] out = Except.error "IndexError: list index out of range" ∧
    (main_model true win cpu pid np output
        [⟨code, RegionTiles.unimplemented, []⟩]).2 =
      Except.error "IndexError: list index out of range" := by
  intro out win cpu pid np output code
  exact ⟨rfl, rfl⟩

end RDop
